import Mathlib

/-!
# Verification of the meta-ad-generator campaign batch core

Shallow embedding of the campaign batch orchestrator, the generation record
store (image-list normalization, partial updates), the batch status
derivation, and the external image generator client of the
`meta-ad-generator` backend, together with proofs of the behavioural claims
about them.

Sources embedded:
- `src/database/generations.js` (in `src/middleware/upload.js` part 2):
  `normalizeImageEntry`, `normalizeGenerationImages`, `createGeneration`,
  `updateGeneration`.
- `src/database/campaignBatches.js` (in `src/unnamed/part_005`):
  `createCampaignBatch`, `refreshBatchStatus`.
- `src/routes/campaign.js` (in `src/unnamed/part_000`): `withConcurrency`,
  `executeItem`, `router.post('/generate')`.
- `src/services/fal.js` (in `src/unnamed/part_007`): `generateImages`
  (its outcome shape and structured errors).

JavaScript nullish/truthy idioms are made explicit: `Option` models
`null`/`undefined`/absent, and helper functions (`jsStrOr`, `jsOrNullStr`,
…) reproduce `||` / `??` semantics on strings, where the empty string is
falsy.
-/

set_option autoImplicit false

namespace MetaAd

/-! ### JSON-ish metadata values

`generations.metadata` and `campaign_batches.metadata` are JSONB objects.
We model the values actually stored by the embedded code paths. -/

inductive JVal where
  | jnull
  | jstr (s : String)
  | jint (n : Int)
  | jbool (b : Bool)
deriving DecidableEq, Repr

/-- A JS object as an association list in insertion order (JS objects keep
first-insertion key order; later writes to an existing key keep its slot). -/
abbrev Metadata : Type := List (String × JVal)

/-- JS object property write: overwrite in place when the key exists
(keys of a JS object are unique, so replacing the first occurrence is
replacing the occurrence), append otherwise — mirrors `{...old, k: v}`
literal semantics. -/
def Metadata.set : Metadata → String → JVal → Metadata
  | [], k, v => [(k, v)]
  | p :: rest, k, v =>
      if p.1 = k then (k, v) :: rest else p :: Metadata.set rest k v

/-- JS object property read (`obj[k]`), `none` when the key is absent. -/
def Metadata.get (m : Metadata) (k : String) : Option JVal :=
  (m.find? (fun p => p.1 = k)).map Prod.snd

/-- `x` as a JSON value, writing `null` for a missing string. -/
def jOfOptStr : Option String → JVal
  | none => .jnull
  | some s => .jstr s

/-- `x` as a JSON value, writing `null` for a missing integer. -/
def jOfOptInt : Option Int → JVal
  | none => .jnull
  | some n => .jint n

/-! ### JS string truthiness helpers -/

/-- Truthiness of a JS string-or-nullish value: `null`/`undefined` and the
empty string are falsy. -/
def jsTruthyStr : Option String → Bool
  | none => false
  | some s => s ≠ ""

/-- `x || d` for a JS string-or-nullish `x` and string default `d`. -/
def jsStrOr (x : Option String) (d : String) : String :=
  match x with
  | some s => if s = "" then d else s
  | none => d

/-- `x || null` for a JS string-or-nullish `x`: collapses the falsy empty
string to `null`. -/
def jsOrNullStr : Option String → Option String
  | some s => if s = "" then none else some s
  | none => none

/-- `a || b || null` on JS string-or-nullish values. -/
def jsOrStrChain (a b : Option String) : Option String :=
  match jsOrNullStr a with
  | some s => some s
  | none => jsOrNullStr b

/-- `x ? String(x).trim() : null` — the route-level goal coercion. -/
def jsTrimOrNull : Option String → Option String
  | none => none
  | some s => if s = "" then none else some s.trim

/-! ### Status enums

`generations.status` is constrained by `chk_generations_status` to
`pending | processing | done | failed`; `campaign_batches.status` takes
`running | done | failed`. -/

inductive GenStatus where
  | pending
  | processing
  | done
  | failed
deriving DecidableEq, Repr

inductive BatchStatus where
  | running
  | done
  | failed
deriving DecidableEq, Repr

/-! ### Image-list normalization (`src/database/generations.js`)

Input entries of `normalizeImageEntry` are either raw strings, objects
(of which the function reads `url`, `width`, `height`, `content_type`,
`score`, `status`), or anything else (`null`, numbers, …) on which every
optional-chained read yields `undefined`. -/

structure ImgObj where
  url : Option String
  width : Option Int
  height : Option Int
  content_type : Option String
  score : Option Int
  status : Option String
deriving DecidableEq, Repr

inductive ImgInput where
  | str (s : String)
  | obj (o : ImgObj)
  | other
deriving DecidableEq, Repr

def ImgInput.width? : ImgInput → Option Int
  | .obj o => o.width
  | _ => none

def ImgInput.height? : ImgInput → Option Int
  | .obj o => o.height
  | _ => none

def ImgInput.contentType? : ImgInput → Option String
  | .obj o => o.content_type
  | _ => none

def ImgInput.score? : ImgInput → Option Int
  | .obj o => o.score
  | _ => none

def ImgInput.status? : ImgInput → Option String
  | .obj o => o.status
  | _ => none

/-- `typeof img === 'string' ? img : (img?.url || null)` followed by the
`if (!url) return null` guard: the resolvable URL of an input entry. -/
def resolveImgUrl : ImgInput → Option String
  | .str s => if s = "" then none else some s
  | .obj o => jsOrNullStr o.url
  | .other => none

/-- `Boolean(selectedUrl && url === selectedUrl)`. -/
def jsIsSelected (url : String) (selectedUrl : Option String) : Bool :=
  match selectedUrl with
  | none => false
  | some s => if s = "" then false else url == s

/-- The consistent stored shape
`{ url, width, height, content_type, is_selected, score, status }`. -/
structure NormImage where
  url : String
  width : Option Int
  height : Option Int
  content_type : String
  is_selected : Bool
  score : Option Int
  status : String
deriving DecidableEq, Repr

/-- `normalizeImageEntry(img, selectedUrl)`. -/
def normalizeImageEntry (img : ImgInput) (selectedUrl : Option String) :
    Option NormImage :=
  match resolveImgUrl img with
  | none => none
  | some url =>
      some { url := url
             width := img.width?
             height := img.height?
             content_type := (img.contentType?).getD "image/jpeg"
             is_selected := jsIsSelected url selectedUrl
             score := img.score?
             status := (img.status?).getD "ready" }

/-- `normalizeGenerationImages(images, selectedUrl)`: map every entry
through `normalizeImageEntry` and drop the `null`s (`.filter(Boolean)`).
A non-array input yields `[]`; we model array inputs, the only shape the
embedded call sites produce. -/
def normalizeGenerationImages (images : List ImgInput)
    (selectedUrl : Option String) : List NormImage :=
  images.filterMap (fun img => normalizeImageEntry img selectedUrl)

/-- Reading a stored normalized entry back as an input object (the shape a
re-normalization pass would receive from the JSONB column; the stored
`is_selected` field is never read by `normalizeImageEntry`). -/
def NormImage.toInput (e : NormImage) : ImgInput :=
  .obj { url := some e.url
         width := e.width
         height := e.height
         content_type := some e.content_type
         score := e.score
         status := some e.status }

/-! ### Persistent rows and the relational store

One `generations` row and one `campaign_batches` row, with the columns the
embedded code paths read or write (timestamps are not modelled; no claim
observes them). SERIAL keys are modelled by per-table `next…Id` counters. -/

structure GenRow where
  id : Nat
  client_id : Nat
  brand_kit_id : Option Nat
  template_id : Option Nat
  campaign_batch_id : Option Nat
  status : GenStatus
  prompt : Option String
  headline : Option String
  body_copy : Option String
  cta : Option String
  concept : Option String
  avatar : Option String
  asset_ids : List Int
  generated_images : List NormImage
  selected_image_url : Option String
  error : Option String
  metadata : Metadata
deriving DecidableEq, Repr

structure BatchRow where
  id : Nat
  client_id : Nat
  goal : Option String
  total_items : Nat
  status : BatchStatus
  metadata : Metadata
deriving DecidableEq, Repr

structure Store where
  batches : List BatchRow
  generations : List GenRow
  nextBatchId : Nat
  nextGenId : Nat
deriving DecidableEq, Repr

/-- SERIAL-key well-formedness: every existing row id is below the next
id the sequence will hand out. Holds for any store built from an empty one
by the embedded create operations. -/
def Store.Wf (store : Store) : Prop :=
  (∀ g ∈ store.generations, g.id < store.nextGenId) ∧
  (∀ b ∈ store.batches, b.id < store.nextBatchId)

/-! ### `createGeneration` / `updateGeneration`
(`src/database/generations.js`) -/

structure CreateGenArgs where
  client_id : Nat
  brand_kit_id : Option Nat
  template_id : Option Nat
  prompt : Option String
  headline : Option String
  body_copy : Option String
  cta : Option String
  concept : Option String
  avatar : Option String
  asset_ids : List Int
  metadata : Metadata
deriving Repr

/-- `createGeneration(fields)`: INSERT with `status = 'pending'` and the
column defaults (`generated_images = []`, `campaign_batch_id` null). -/
def createGeneration (a : CreateGenArgs) (store : Store) : GenRow × Store :=
  let g : GenRow :=
    { id := store.nextGenId
      client_id := a.client_id
      brand_kit_id := a.brand_kit_id
      template_id := a.template_id
      campaign_batch_id := none
      status := .pending
      prompt := a.prompt
      headline := a.headline
      body_copy := a.body_copy
      cta := a.cta
      concept := a.concept
      avatar := a.avatar
      asset_ids := a.asset_ids
      generated_images := []
      selected_image_url := none
      error := none
      metadata := a.metadata }
  (g, { store with
        generations := store.generations ++ [g]
        nextGenId := store.nextGenId + 1 })

/-- The partial-update argument of `updateGeneration`. An outer `none`
means the key is absent from `fields`; for nullable columns the inner
`Option` carries an explicit `null`. Only keys in the `UPDATABLE` set are
representable. -/
structure UpdateFields where
  status : Option GenStatus
  generated_images : Option (List ImgInput)
  selected_image_url : Option (Option String)
  error : Option (Option String)
  prompt : Option (Option String)
  headline : Option (Option String)
  body_copy : Option (Option String)
  cta : Option (Option String)
  concept : Option (Option String)
  avatar : Option (Option String)
  asset_ids : Option (List Int)
  metadata : Option Metadata
deriving Repr

def UpdateFields.none' : UpdateFields :=
  { status := none, generated_images := none, selected_image_url := none
    error := none, prompt := none, headline := none, body_copy := none
    cta := none, concept := none, avatar := none, asset_ids := none
    metadata := none }

/-- Whether `updateGeneration` builds at least one `SET` clause. -/
def UpdateFields.hasUpdates (f : UpdateFields) : Bool :=
  f.status.isSome || f.generated_images.isSome ||
  f.selected_image_url.isSome || f.error.isSome || f.prompt.isSome ||
  f.headline.isSome || f.body_copy.isSome || f.cta.isSome ||
  f.concept.isSome || f.avatar.isSome || f.asset_ids.isSome ||
  f.metadata.isSome

/-- The effect of `updateGeneration`'s SET clauses on one row.
`generated_images`, when present, is normalized with
`fields.selected_image_url ?? null` (`Option.join` of the outer/inner
encoding) as the selection key; every other supplied field is written
as-is. -/
def applyUpdateFields (f : UpdateFields) (g : GenRow) : GenRow :=
  { g with
    generated_images :=
      match f.generated_images with
      | some imgs => normalizeGenerationImages imgs f.selected_image_url.join
      | none => g.generated_images
    status := f.status.getD g.status
    selected_image_url := f.selected_image_url.getD g.selected_image_url
    error := f.error.getD g.error
    prompt := f.prompt.getD g.prompt
    headline := f.headline.getD g.headline
    body_copy := f.body_copy.getD g.body_copy
    cta := f.cta.getD g.cta
    concept := f.concept.getD g.concept
    avatar := f.avatar.getD g.avatar
    asset_ids := f.asset_ids.getD g.asset_ids
    metadata := f.metadata.getD g.metadata }

def genMatches (id clientId : Nat) (g : GenRow) : Bool :=
  g.id == id && g.client_id == clientId

/-- `updateGeneration(id, clientId, fields)`: with no updatable keys it
reads the row back unchanged; otherwise it rewrites every matching row and
returns the updated row (`rows[0] || null`). -/
def updateGeneration (id clientId : Nat) (f : UpdateFields) (store : Store) :
    Option GenRow × Store :=
  if f.hasUpdates then
    let gens := store.generations.map
      (fun g => if genMatches id clientId g then applyUpdateFields f g else g)
    (gens.find? (genMatches id clientId), { store with generations := gens })
  else
    (store.generations.find? (genMatches id clientId), store)

/-! ### Campaign batch store (`src/database/campaignBatches.js`) -/

/-- `createCampaignBatch({client_id, goal, total_items, metadata})`: the
INSERT names no `status` column, so the schema default `'running'`
applies. -/
def createCampaignBatch (clientId : Nat) (goal : Option String)
    (totalItems : Nat) (metadata : Metadata) (store : Store) :
    BatchRow × Store :=
  let b : BatchRow :=
    { id := store.nextBatchId
      client_id := clientId
      goal := goal
      total_items := totalItems
      status := .running
      metadata := metadata }
  (b, { store with
        batches := store.batches ++ [b]
        nextBatchId := store.nextBatchId + 1 })

/-- The child generation rows of a batch, as selected by
`WHERE campaign_batch_id = $1 AND client_id = $2`. -/
def batchChildren (batchId clientId : Nat) (store : Store) : List GenRow :=
  store.generations.filter
    (fun g => g.campaign_batch_id == some batchId && g.client_id == clientId)

/-- The status computation of `refreshBatchStatus` from the three counts
of its aggregate query (`in_flight`, `failed_count`, `total`). -/
def deriveBatchStatus (children : List GenStatus) : BatchStatus :=
  let total := children.length
  let failedCount := children.countP (fun s => s == .failed)
  let inFlight := children.countP (fun s => s == .pending || s == .processing)
  if inFlight > 0 then .running
  else if failedCount = total then .failed
  else .done

/-- `refreshBatchStatus(batchId, clientId)`: recompute the aggregate
status from the child rows and persist it on the matching batch row;
returns the derived status. -/
def refreshBatchStatus (batchId clientId : Nat) (store : Store) :
    BatchStatus × Store :=
  let children := batchChildren batchId clientId store
  let status := deriveBatchStatus (children.map GenRow.status)
  (status,
   { store with
     batches := store.batches.map
       (fun b => if b.id == batchId && b.client_id == clientId
                 then { b with status := status } else b) })

/-! ### External image generator client (`src/services/fal.js`)

`generateImages` either throws a structured error
(`FAL_KEY_MISSING | FAL_TIMEOUT | FAL_ERROR`) or resolves to
`{ images, seed, requestId, model }` with `images` already normalized to
`[{ url, width, height, content_type }]` entries whose `url` is truthy. -/

inductive FalFailure where
  | keyMissing
  | timeout (ms : Nat)
  | providerError (msg : String)
deriving DecidableEq, Repr

/-- The human-readable `message` carried by each structured error. -/
def falMessage : FalFailure → String
  | .keyMissing => "FAL_KEY is not configured"
  | .timeout ms => "FAL request timed out after " ++ toString ms ++ "ms"
  | .providerError msg => msg

structure FalImage where
  url : String
  width : Option Int
  height : Option Int
  content_type : String
deriving DecidableEq, Repr

/-- `normalizeImages(raw)` of the fal client: coerce each raw entry with
`||` defaults and drop entries whose `url` is falsy. -/
def falNormalizeImages (raw : List ImgInput) : List FalImage :=
  raw.filterMap (fun img =>
    match img with
    | .str s => if s = "" then none else
        some { url := s, width := none, height := none
               content_type := "image/jpeg" }
    | .obj o =>
        match jsOrNullStr o.url with
        | none => none
        | some u =>
            some { url := u
                   width := o.width
                   height := o.height
                   content_type := jsStrOr o.content_type "image/jpeg" }
    | .other => none)

structure FalResult where
  images : List FalImage
  seed : Option Int
  requestId : Option String
  model : String
deriving DecidableEq, Repr

/-- The options object `executeItem` assembles for `generateImages`. -/
structure FalOpts where
  imageSize : String
  numImages : Nat
  imageUrl : Option String
  strength : Option ℚ
deriving DecidableEq, Repr

/-- A stored normalized entry viewed as input to a later
`updateGeneration` call (the shape the route passes straight through). -/
def FalImage.toImgInput (im : FalImage) : ImgInput :=
  .obj { url := some im.url
         width := im.width
         height := im.height
         content_type := some im.content_type
         score := none
         status := none }

/-! ### Campaign plan items and `executeItem`
(`src/routes/campaign.js`, `src/unnamed/part_000`) -/

/-- The fields of a plan item that `POST /api/campaign/generate` and
`executeItem` read. `none` models an absent/nullish field. -/
structure PlanItem where
  index : Option Nat
  persona : Option String
  angle : Option String
  prompt : Option String
  concept : Option String
  headline : Option String
  cta : Option String
  image_size : Option String
  product_image_url : Option String
  metadata_goal : Option String
  metadata_strategy_rationale : Option String
deriving DecidableEq, Repr

def BATCH_CONCURRENCY : Nat := 3

/-- `falOpts` construction in `executeItem`: size default `'square_hd'`,
one variant, and — when the item carries a truthy product image URL —
that URL plus the fixed denoising strength `0.75` (img2img mode). -/
def buildFalOpts (item : PlanItem) : FalOpts :=
  if jsTruthyStr item.product_image_url then
    { imageSize := jsStrOr item.image_size "square_hd"
      numImages := 1
      imageUrl := item.product_image_url
      strength := some (0.75 : ℚ) }
  else
    { imageSize := jsStrOr item.image_size "square_hd"
      numImages := 1
      imageUrl := none
      strength := none }

/-- Execution state threaded through `executeItem`: the store plus a
counter of invocations of the external image generator. -/
structure ExecState where
  store : Store
  falCalls : Nat
deriving Repr

/-- `executeItem`'s resolved value: `{success: true, image_url}` or
`{success: false, error}`. -/
inductive ExecResult where
  | ok (image_url : Option String)
  | failure (error : String)
deriving DecidableEq, Repr

/-- `executeItem(item, generation, clientId, batchId)`. The single call
to the external generator is represented by applying `falGen` once to the
item's prompt and the assembled options, bumping `falCalls`. The
`finally` block re-derives the batch status regardless of outcome. -/
def executeItem (falGen : Option String → FalOpts → Except FalFailure FalResult)
    (item : PlanItem) (generation : GenRow) (clientId batchId : Nat)
    (st : ExecState) : ExecResult × ExecState :=
  let store1 :=
    (updateGeneration generation.id clientId
      { UpdateFields.none' with status := some .processing } st.store).2
  let falOpts := buildFalOpts item
  let outcome := falGen item.prompt falOpts
  let calls1 := st.falCalls + 1
  match outcome with
  | .ok result =>
      let firstImageUrl := jsOrNullStr ((result.images.head?).map FalImage.url)
      let newMeta :=
        ((generation.metadata.set "fal_request_id" (jOfOptStr result.requestId)).set
            "fal_seed" (jOfOptInt result.seed)).set
          "fal_model" (.jstr result.model)
      let store2 :=
        (updateGeneration generation.id clientId
          { UpdateFields.none' with
            status := some .done
            generated_images := some (result.images.map FalImage.toImgInput)
            selected_image_url := some firstImageUrl
            metadata := some newMeta } store1).2
      let store3 := (refreshBatchStatus batchId clientId store2).2
      (.ok firstImageUrl, { store := store3, falCalls := calls1 })
  | .error e =>
      let errorMsg := jsStrOr (some (falMessage e)) "Generation failed"
      let store2 :=
        (updateGeneration generation.id clientId
          { UpdateFields.none' with
            status := some .failed
            error := some (some errorMsg) } store1).2
      let store3 := (refreshBatchStatus batchId clientId store2).2
      (.failure errorMsg, { store := store3, falCalls := calls1 })

/-! ### `POST /api/campaign/generate` (submit)
(`src/routes/campaign.js`, `src/unnamed/part_000`) -/

/-- The `metadata` object built for each created generation:
`{campaign_batch_id, batch_item_index: item.index ?? (i+1), persona,
angle, goal: goal || item.metadata?.goal || null, strategy_rationale}`
(`i` is the 0-based list position). -/
def campaignGenMetadata (batchId : Nat) (item : PlanItem) (i : Nat)
    (goal : Option String) : Metadata :=
  [ ("campaign_batch_id", .jint batchId),
    ("batch_item_index", .jint (item.index.getD (i + 1))),
    ("persona", jOfOptStr (jsOrNullStr item.persona)),
    ("angle", jOfOptStr (jsOrNullStr item.angle)),
    ("goal", jOfOptStr (jsOrStrChain goal item.metadata_goal)),
    ("strategy_rationale",
      jOfOptStr (jsOrNullStr item.metadata_strategy_rationale)) ]

/-- The raw `UPDATE generations SET campaign_batch_id = $1 WHERE id = $2
RETURNING *` stamp run right after each insert. -/
def stampCampaignBatchId (genId batchId : Nat) (store : Store) :
    Option GenRow × Store :=
  let gens := store.generations.map
    (fun g => if g.id == genId
              then { g with campaign_batch_id := some batchId } else g)
  (gens.find? (fun g => g.id == genId), { store with generations := gens })

/-- The per-item create-then-stamp pipeline of the route, run over the
item list in order (`i` is the 0-based position of the head item). -/
def submitGensLoop (items : List PlanItem) (i : Nat) (batchId : Nat)
    (goal : Option String) (clientId : Nat) (store : Store) :
    List GenRow × Store :=
  match items with
  | [] => ([], store)
  | item :: rest =>
      let created := createGeneration
        { client_id := clientId
          brand_kit_id := none
          template_id := none
          prompt := some (jsStrOr item.prompt "")
          headline := jsOrNullStr item.headline
          body_copy := none
          cta := jsOrNullStr item.cta
          concept := jsOrNullStr item.concept
          avatar := none
          asset_ids := []
          metadata := campaignGenMetadata batchId item i goal } store
      let stamped := stampCampaignBatchId created.1.id batchId created.2
      let g := stamped.1.getD created.1
      let recursed := submitGensLoop rest (i + 1) batchId goal clientId stamped.2
      (g :: recursed.1, recursed.2)

structure SubmitRespItem where
  index : Nat
  generation_id : Nat
  status : GenStatus
deriving DecidableEq, Repr

/-- The response payload `generations.map((g, i) => ({index:
rawItems[i]?.index ?? (i+1), generation_id: g.id, status: 'pending'}))`
— a positional walk over the created rows and the submitted items. -/
def submitRespItems (items : List PlanItem) (gens : List GenRow) (i : Nat) :
    List SubmitRespItem :=
  match items, gens with
  | item :: restItems, g :: restGens =>
      { index := item.index.getD (i + 1)
        generation_id := g.id
        status := .pending } :: submitRespItems restItems restGens (i + 1)
  | _, _ => []

structure SubmitResponse where
  batch_id : Nat
  total : Nat
  items : List SubmitRespItem
deriving DecidableEq, Repr

inductive SubmitOutcome where
  | validationError (msg : String)
  | accepted (resp : SubmitResponse)
deriving DecidableEq, Repr

/-- `POST /api/campaign/generate`: validate the item list, create the
batch record and one generation per item, and respond immediately with
the batch id and the per-item `(index, generation_id, 'pending')`
tuples. The detached background execution (`withConcurrency` over
`executeItem`) is not awaited and happens after this response; it is
modelled separately by `executeItem`/`PoolStep`. `rawItems = none` models
a body whose `items` is not an array. -/
def submitBatch (rawItems : Option (List PlanItem)) (goalRaw : Option String)
    (clientId : Nat) (store : Store) : SubmitOutcome × Store :=
  let goal := jsTrimOrNull goalRaw
  match rawItems with
  | none => (.validationError "items[] array is required", store)
  | some items =>
      if items.length = 0 then
        (.validationError "items[] array is required", store)
      else if items.length > 20 then
        (.validationError "Maximum 20 items per batch", store)
      else
        let created := createCampaignBatch clientId goal items.length
          [("source", .jstr "campaign_plan")] store
        let batch := created.1
        let looped := submitGensLoop items 0 batch.id goal clientId created.2
        let gens := looped.1
        (.accepted { batch_id := batch.id, total := gens.length
                     items := submitRespItems items gens 0 }, looped.2)

/-! ### Worker pool (`withConcurrency`, `src/unnamed/part_000`)

`withConcurrency(items, concurrency, fn)` spawns
`Math.min(concurrency, items.length)` workers over a shared `next`
counter. Each worker loops: read-and-increment `next`; if the claimed
index is in range, await `fn` on it and loop, otherwise stop. In the
single-threaded event loop the only suspension point is the awaited
`fn` call, so a worker is "in flight" exactly while it is running a
claimed job. The small-step relation below is the embedding of one
worker's observable transitions. -/

inductive WorkerState where
  | idle
  | running (jobIndex : Nat)
  | finished
deriving DecidableEq, Repr

def WorkerState.isRunning : WorkerState → Bool
  | .running _ => true
  | _ => false

structure PoolState where
  nextIndex : Nat
  workers : List WorkerState
deriving DecidableEq, Repr

/-- The pool as `withConcurrency(items, concurrency, fn)` starts it:
`next = 0` and `Math.min(concurrency, items.length)` idle workers. -/
def initPool (n concurrency : Nat) : PoolState :=
  { nextIndex := 0, workers := List.replicate (min concurrency n) .idle }

/-- Number of simultaneously in-flight `fn` calls. -/
def inFlightCount (s : PoolState) : Nat :=
  s.workers.countP WorkerState.isRunning

/-- One transition of the pool running `n` jobs: an idle worker claims
the next counter value (entering its awaited call) or observes the
counter exhausted and terminates; a running worker's awaited call
completes and the worker goes back to claim again. -/
inductive PoolStep (n : Nat) : PoolState → PoolState → Prop where
  | claim (s : PoolState) (w : Nat)
      (hw : s.workers.get? w = some .idle) (hn : s.nextIndex < n) :
      PoolStep n s { nextIndex := s.nextIndex + 1
                     workers := s.workers.set w (.running s.nextIndex) }
  | exhaust (s : PoolState) (w : Nat)
      (hw : s.workers.get? w = some .idle) (hn : ¬ s.nextIndex < n) :
      PoolStep n s { s with workers := s.workers.set w .finished }
  | complete (s : PoolState) (w : Nat) (i : Nat)
      (hw : s.workers.get? w = some (.running i)) :
      PoolStep n s { s with workers := s.workers.set w .idle }

/-- States reachable by the pool spawned for `n` jobs at concurrency
ceiling `c`. -/
inductive PoolReachable (n c : Nat) : PoolState → Prop where
  | init : PoolReachable n c (initPool n c)
  | step {s t : PoolState} :
      PoolReachable n c s → PoolStep n s t → PoolReachable n c t

/-! ### Closed forms for the submit pipeline

`createdGenRow` is the row `createGeneration` inserts for one submitted
item; `mkSubmittedGen` the same row after the batch-id stamp;
`submittedGenRows` the rows the whole loop inserts. They are proved
equal to `submitGensLoop`'s output below and exist to state positional
properties. -/

def createdGenRow (clientId genId batchId : Nat) (item : PlanItem) (i : Nat)
    (goal : Option String) : GenRow :=
  { id := genId
    client_id := clientId
    brand_kit_id := none
    template_id := none
    campaign_batch_id := none
    status := .pending
    prompt := some (jsStrOr item.prompt "")
    headline := jsOrNullStr item.headline
    body_copy := none
    cta := jsOrNullStr item.cta
    concept := jsOrNullStr item.concept
    avatar := none
    asset_ids := []
    generated_images := []
    selected_image_url := none
    error := none
    metadata := campaignGenMetadata batchId item i goal }

def mkSubmittedGen (genId clientId batchId : Nat) (item : PlanItem) (i : Nat)
    (goal : Option String) : GenRow :=
  { createdGenRow clientId genId batchId item i goal with
    campaign_batch_id := some batchId }

def submittedGenRows : List PlanItem → Nat → Nat → Nat → Option String →
    Nat → List GenRow
  | [], _, _, _, _, _ => []
  | item :: rest, i, genId, batchId, goal, clientId =>
      mkSubmittedGen genId clientId batchId item i goal ::
        submittedGenRows rest (i + 1) (genId + 1) batchId goal clientId

/-! ### Concrete fixtures used by witnesses and counterexamples -/

def c1DemoStore : Store :=
  { batches := [{ id := 1, client_id := 1, goal := none, total_items := 2,
                  status := .running, metadata := [] }],
    generations :=
      [ { id := 1, client_id := 1, brand_kit_id := none, template_id := none,
          campaign_batch_id := some 1, status := .done, prompt := none,
          headline := none, body_copy := none, cta := none, concept := none,
          avatar := none, asset_ids := [], generated_images := [],
          selected_image_url := none, error := none, metadata := [] },
        { id := 2, client_id := 1, brand_kit_id := none, template_id := none,
          campaign_batch_id := some 1, status := .failed, prompt := none,
          headline := none, body_copy := none, cta := none, concept := none,
          avatar := none, asset_ids := [], generated_images := [],
          selected_image_url := none, error := none, metadata := [] } ],
    nextBatchId := 2, nextGenId := 3 }

def c1DemoBatch : BatchRow :=
  { id := 1, client_id := 1, goal := none, total_items := 2,
    status := .done, metadata := [] }

def c2EmptyStore : Store :=
  { batches := [{ id := 1, client_id := 1, goal := none, total_items := 0,
                  status := .running, metadata := [] }],
    generations := [], nextBatchId := 2, nextGenId := 1 }

def c5DemoImages : List ImgInput :=
  [ .str "https://cdn.example/a.jpg",
    .obj { url := some "https://cdn.example/b.jpg", width := some 1024,
           height := some 1024, content_type := none, score := none,
           status := none },
    .obj { url := none, width := some 8, height := none,
           content_type := none, score := none, status := none },
    .other ]

def c10DemoRow : GenRow :=
  { id := 1, client_id := 1, brand_kit_id := none, template_id := none,
    campaign_batch_id := none, status := .done, prompt := none,
    headline := none, body_copy := none, cta := none, concept := none,
    avatar := none, asset_ids := [], generated_images := [],
    selected_image_url := some "https://cdn.example/old.jpg", error := none,
    metadata := [] }

def c10DemoStore : Store :=
  { batches := [], generations := [c10DemoRow], nextBatchId := 1,
    nextGenId := 2 }

def c10DemoFields : UpdateFields :=
  { UpdateFields.none' with
    generated_images := some [ImgInput.str "https://cdn.example/new.jpg"] }

def c7DemoGen : GenRow :=
  { id := 1, client_id := 1, brand_kit_id := none, template_id := none,
    campaign_batch_id := some 1, status := .pending, prompt := some "p",
    headline := none, body_copy := none, cta := none, concept := none,
    avatar := none, asset_ids := [], generated_images := [],
    selected_image_url := none, error := none,
    metadata := [("persona", .jstr "busy parent")] }

def c7DemoItem : PlanItem :=
  { index := some 1, persona := some "busy parent", angle := none,
    prompt := some "p", concept := none, headline := none, cta := none,
    image_size := none, product_image_url := none, metadata_goal := none,
    metadata_strategy_rationale := none }

def c7DemoState : ExecState :=
  { store := { batches := [{ id := 1, client_id := 1, goal := none,
                             total_items := 1, status := .running,
                             metadata := [] }],
               generations := [c7DemoGen], nextBatchId := 2, nextGenId := 2 },
    falCalls := 0 }

def c8DemoResult : FalResult :=
  { images := [{ url := "https://cdn.example/gen1.jpg", width := some 1024,
                 height := some 1024, content_type := "image/jpeg" }],
    seed := some 42, requestId := some "req-123",
    model := "fal-ai/flux/dev" }

/-- The generation row as stored after the demo success run. -/

def c4Item7 : PlanItem :=
  { index := some 7, persona := none, angle := none, prompt := some "p",
    concept := none, headline := none, cta := none, image_size := none,
    product_image_url := none, metadata_goal := none,
    metadata_strategy_rationale := none }

def emptyStore : Store :=
  { batches := [], generations := [], nextBatchId := 1, nextGenId := 1 }

def c4WitItem : PlanItem :=
  { index := none, persona := some "saver", angle := some "value",
    prompt := some "prompt text", concept := none, headline := none,
    cta := none, image_size := none, product_image_url := none,
    metadata_goal := none, metadata_strategy_rationale := none }

/-! ## Theorems -/

/-! ### Batch status derivation (claims C1, C2) -/

/-- Any batch row matching the refreshed id/client carries the status
derived from the child rows. -/
theorem refreshBatchStatus_mem (batchId clientId : Nat) (store : Store)
    {b : BatchRow} (hb : b ∈ (refreshBatchStatus batchId clientId store).2.batches)
    (hid : b.id = batchId) (hcl : b.client_id = clientId) :
    b.status = deriveBatchStatus
      ((batchChildren batchId clientId store).map GenRow.status) := by
  unfold refreshBatchStatus at hb
  simp only [List.mem_map] at hb
  obtain ⟨b0, _hb0, hf⟩ := hb
  by_cases hc : (b0.id == batchId && b0.client_id == clientId) = true
  · rw [if_pos hc] at hf
    rw [← hf]
  · rw [if_neg hc] at hf
    subst hf
    simp [hid, hcl] at hc

/-- C1: for every batch, `refreshBatchStatus` derives and persists the
aggregate status from its child generation rows: `running` when the count
of children in `pending`/`processing` is positive, else `failed` when the
`failed` count equals the total child count, else `done`. -/
theorem refreshBatchStatus_derives_and_persists (batchId clientId : Nat)
    (store : Store) (b : BatchRow)
    (hb : b ∈ (refreshBatchStatus batchId clientId store).2.batches)
    (hid : b.id = batchId) (hcl : b.client_id = clientId) :
    (b.status =
      (let children := (batchChildren batchId clientId store).map GenRow.status
       if 0 < children.countP (fun s => s == .pending || s == .processing)
       then BatchStatus.running
       else if children.countP (fun s => s == .failed) = children.length
       then BatchStatus.failed
       else BatchStatus.done))
    ∧ (refreshBatchStatus batchId clientId store).1 = b.status := by
  have h := refreshBatchStatus_mem batchId clientId store hb hid hcl
  refine ⟨?_, ?_⟩
  · rw [h]
    rfl
  · rw [h]
    rfl

/-- Witness for C1 at a two-child batch (one `done`, one `failed`). -/
theorem refreshBatchStatus_derives_and_persists_witness :
    (c1DemoBatch.status =
      (let children := (batchChildren 1 1 c1DemoStore).map GenRow.status
       if 0 < children.countP (fun s => s == .pending || s == .processing)
       then BatchStatus.running
       else if children.countP (fun s => s == .failed) = children.length
       then BatchStatus.failed
       else BatchStatus.done))
    ∧ (refreshBatchStatus 1 1 c1DemoStore).1 = c1DemoBatch.status :=
  refreshBatchStatus_derives_and_persists 1 1 c1DemoStore c1DemoBatch
    (by decide) rfl rfl

/-- C2 counterexample: on a batch with zero child generation rows the
derivation evaluates to `failed` (the `failed` count 0 equals the total
0), not `done` as claimed. -/
theorem zeroChildren_batch_derives_failed_not_done :
    (refreshBatchStatus 1 1 c2EmptyStore).1 = BatchStatus.failed
    ∧ (refreshBatchStatus 1 1 c2EmptyStore).1 ≠ BatchStatus.done
    ∧ deriveBatchStatus [] = BatchStatus.failed := by
  decide

/-- C2 amended: for a batch with zero child generation rows the status
derivation evaluates to `failed` — the zero `failed` count equals the
zero total, and there are no in-flight children — and that status is
persisted on the matching batch row. -/
theorem zeroChildren_batch_derivation (batchId clientId : Nat) (store : Store)
    (h : batchChildren batchId clientId store = []) :
    (refreshBatchStatus batchId clientId store).1 = BatchStatus.failed
    ∧ ∀ b ∈ (refreshBatchStatus batchId clientId store).2.batches,
        b.id = batchId → b.client_id = clientId →
        b.status = BatchStatus.failed := by
  constructor
  · show deriveBatchStatus ((batchChildren batchId clientId store).map GenRow.status)
      = BatchStatus.failed
    rw [h]
    rfl
  · intro b hb hid hcl
    rw [refreshBatchStatus_mem batchId clientId store hb hid hcl, h]
    rfl

/-- Witness for the amended C2 at a concrete childless batch. -/
theorem zeroChildren_batch_derivation_witness :
    (refreshBatchStatus 1 1 c2EmptyStore).1 = BatchStatus.failed
    ∧ ∀ b ∈ (refreshBatchStatus 1 1 c2EmptyStore).2.batches,
        b.id = 1 → b.client_id = 1 → b.status = BatchStatus.failed :=
  zeroChildren_batch_derivation 1 1 c2EmptyStore (by decide)

/-! ### Worker pool concurrency cap (claim C9) -/

theorem poolStep_workers_length {n : Nat} {s t : PoolState}
    (h : PoolStep n s t) : t.workers.length = s.workers.length := by
  cases h <;> simp

theorem poolReachable_workers_length {n c : Nat} {s : PoolState}
    (h : PoolReachable n c s) : s.workers.length = min c n := by
  induction h with
  | init => simp [initPool]
  | step _ hstep ih => rw [poolStep_workers_length hstep, ih]

/-- C9: background execution of a batch of `n` jobs runs through a pool
of exactly `min BATCH_CONCURRENCY n` workers over a shared next-index
counter, so in every reachable pool state at most `min 3 n` — in
particular at most 3 — external image-generation calls are
simultaneously in flight, regardless of batch size. -/
theorem pool_inFlight_bound (n : Nat) (s : PoolState)
    (h : PoolReachable n BATCH_CONCURRENCY s) :
    s.workers.length = min BATCH_CONCURRENCY n
    ∧ inFlightCount s ≤ min BATCH_CONCURRENCY n
    ∧ inFlightCount s ≤ 3 := by
  have hlen := poolReachable_workers_length h
  have hcount : inFlightCount s ≤ s.workers.length := List.countP_le_length _
  refine ⟨hlen, ?_, ?_⟩
  · rw [← hlen]
    exact hcount
  · calc inFlightCount s ≤ min BATCH_CONCURRENCY n := by rw [← hlen]; exact hcount
      _ ≤ BATCH_CONCURRENCY := Nat.min_le_left _ _
      _ ≤ 3 := Nat.le_refl 3

/-- Witness for C9: the pool for 5 jobs right after the first worker
claims job 0. -/
theorem pool_inFlight_bound_witness :
    ({ nextIndex := 1, workers := [.running 0, .idle, .idle] } :
        PoolState).workers.length = min BATCH_CONCURRENCY 5
    ∧ inFlightCount { nextIndex := 1, workers := [.running 0, .idle, .idle] }
        ≤ min BATCH_CONCURRENCY 5
    ∧ inFlightCount { nextIndex := 1, workers := [.running 0, .idle, .idle] }
        ≤ 3 :=
  pool_inFlight_bound 5 _
    (PoolReachable.step PoolReachable.init
      (PoolStep.claim (initPool 5 BATCH_CONCURRENCY) 0 rfl (by decide)))

/-! ### Image-list normalization (claims C5, C6) -/

theorem jsOrNullStr_ne_empty {x : Option String} {u : String}
    (h : jsOrNullStr x = some u) : u ≠ "" := by
  match x with
  | none => exact absurd h (by simp [jsOrNullStr])
  | some s =>
      by_cases hs : s = ""
      · simp [jsOrNullStr, hs] at h
      · simp [jsOrNullStr, hs] at h
        subst h
        exact hs

theorem resolveImgUrl_ne_empty {img : ImgInput} {u : String}
    (h : resolveImgUrl img = some u) : u ≠ "" := by
  match img with
  | .str s =>
      by_cases hs : s = ""
      · simp [resolveImgUrl, hs] at h
      · simp [resolveImgUrl, hs] at h
        subst h
        exact hs
  | .obj o => exact jsOrNullStr_ne_empty h
  | .other => exact absurd h (by simp [resolveImgUrl])

/-- What `normalizeImageEntry` guarantees about an entry it keeps: the
entry is the literal record built from the resolved URL. -/
theorem normalizeImageEntry_eq_some {img : ImgInput} {sel : Option String}
    {e : NormImage} (h : normalizeImageEntry img sel = some e) :
    ∃ u, resolveImgUrl img = some u ∧ u ≠ "" ∧
      e = { url := u
            width := img.width?
            height := img.height?
            content_type := (img.contentType?).getD "image/jpeg"
            is_selected := jsIsSelected u sel
            score := img.score?
            status := (img.status?).getD "ready" } := by
  unfold normalizeImageEntry at h
  match hres : resolveImgUrl img with
  | none => rw [hres] at h; exact absurd h (by simp)
  | some u =>
      rw [hres] at h
      refine ⟨u, rfl, resolveImgUrl_ne_empty hres, ?_⟩
      exact (Option.some.inj h).symm

/-- Re-normalizing a kept entry (read back from storage) with the same
selection key reproduces it exactly. -/
theorem normalizeImageEntry_toInput {img : ImgInput} {sel : Option String}
    {e : NormImage} (h : normalizeImageEntry img sel = some e) :
    normalizeImageEntry e.toInput sel = some e := by
  obtain ⟨u, _hres, hne, he⟩ := normalizeImageEntry_eq_some h
  subst he
  simp [normalizeImageEntry, NormImage.toInput, resolveImgUrl, jsOrNullStr,
    hne, ImgInput.width?, ImgInput.height?, ImgInput.contentType?,
    ImgInput.score?, ImgInput.status?]

theorem mem_normalizeGenerationImages {images : List ImgInput}
    {sel : Option String} {e : NormImage}
    (he : e ∈ normalizeGenerationImages images sel) :
    ∃ img ∈ images, normalizeImageEntry img sel = some e := by
  unfold normalizeGenerationImages at he
  exact List.mem_filterMap.mp he

/-- A list every element of which re-normalizes to itself is a fixed
point of normalization. -/
theorem normalize_toInput_fixed (sel : Option String) :
    ∀ l : List NormImage,
      (∀ e ∈ l, normalizeImageEntry e.toInput sel = some e) →
      normalizeGenerationImages (l.map NormImage.toInput) sel = l := by
  intro l
  induction l with
  | nil => intro _; rfl
  | cons e rest ih =>
      intro hl
      have he := hl e (by simp)
      have hrest := fun x hx => hl x (List.mem_cons_of_mem _ hx)
      unfold normalizeGenerationImages at *
      simp only [List.map_cons, List.filterMap_cons, he]
      rw [ih hrest]

/-- C5: image-list normalization is idempotent — normalizing an
already-normalized list again with the same selected URL yields exactly
the same entries with the same `is_selected` flags — and every input
entry lacking a resolvable URL is dropped. -/
theorem normalizeGenerationImages_idempotent_and_drops
    (images : List ImgInput) (sel : Option String) :
    normalizeGenerationImages
        ((normalizeGenerationImages images sel).map NormImage.toInput) sel
      = normalizeGenerationImages images sel
    ∧ ∀ img ∈ images, resolveImgUrl img = none →
        normalizeImageEntry img sel = none := by
  constructor
  · refine normalize_toInput_fixed sel _ ?_
    intro e he
    obtain ⟨img, _, h⟩ := mem_normalizeGenerationImages he
    exact normalizeImageEntry_toInput h
  · intro img _ h
    simp [normalizeImageEntry, h]

/-- Witness for C5 at a concrete mixed list (string entry, object entry,
URL-less object, non-object), with a selection key. -/
theorem normalizeGenerationImages_idempotent_and_drops_witness :
    (normalizeGenerationImages
        ((normalizeGenerationImages c5DemoImages
            (some "https://cdn.example/b.jpg")).map NormImage.toInput)
        (some "https://cdn.example/b.jpg")
      = normalizeGenerationImages c5DemoImages
          (some "https://cdn.example/b.jpg"))
    ∧ normalizeImageEntry ImgInput.other (some "https://cdn.example/b.jpg")
        = none :=
  ⟨(normalizeGenerationImages_idempotent_and_drops c5DemoImages
      (some "https://cdn.example/b.jpg")).1,
   (normalizeGenerationImages_idempotent_and_drops c5DemoImages
      (some "https://cdn.example/b.jpg")).2 ImgInput.other (by decide) rfl⟩

/-- C6: an output entry of normalization has `is_selected = true` exactly
when its URL equals the selection key `selected_image_url`; with a null
selection key every output entry has `is_selected = false`. -/
theorem normalize_is_selected_iff (images : List ImgInput)
    (sel : Option String) (e : NormImage)
    (he : e ∈ normalizeGenerationImages images sel) :
    (e.is_selected = true ↔ sel = some e.url)
    ∧ (sel = none → e.is_selected = false) := by
  obtain ⟨img, _, h⟩ := mem_normalizeGenerationImages he
  obtain ⟨u, _hres, hne, hrec⟩ := normalizeImageEntry_eq_some h
  subst hrec
  match sel with
  | none => simp [jsIsSelected]
  | some s =>
      by_cases hs : s = ""
      · subst hs
        simp [jsIsSelected]
        exact fun hu => absurd hu.symm hne
      · simp only [jsIsSelected, if_neg hs, Option.some.injEq]
        constructor
        · simp only [beq_iff_eq]
          exact eq_comm
        · intro hcontra
          exact absurd hcontra (by simp)

/-- Witness for C6 at a concrete normalized entry. -/
theorem normalize_is_selected_iff_witness :
    (({ url := "https://cdn.example/a.jpg", width := none, height := none,
        content_type := "image/jpeg", is_selected := true, score := none,
        status := "ready" } : NormImage).is_selected = true
      ↔ some "https://cdn.example/a.jpg"
          = some ({ url := "https://cdn.example/a.jpg", width := none,
                    height := none, content_type := "image/jpeg",
                    is_selected := true, score := none,
                    status := "ready" } : NormImage).url)
    ∧ (some "https://cdn.example/a.jpg" = none →
        ({ url := "https://cdn.example/a.jpg", width := none, height := none,
           content_type := "image/jpeg", is_selected := true, score := none,
           status := "ready" } : NormImage).is_selected = false) :=
  normalize_is_selected_iff [ImgInput.str "https://cdn.example/a.jpg"]
    (some "https://cdn.example/a.jpg") _ (by decide)

/-! ### Partial updates (claim C10) and shared update lemmas -/

/-- `find?` commutes with a conditional rewrite that preserves the
predicate. -/
theorem find?_map_ite {α : Type} (p : α → Bool) (u : α → α)
    (hu : ∀ a, p (u a) = p a) :
    ∀ l : List α,
      (l.map (fun a => if p a then u a else a)).find? p = (l.find? p).map u := by
  intro l
  induction l with
  | nil => rfl
  | cons a t ih =>
      by_cases h : p a = true
      · simp only [List.map_cons, if_pos h]
        rw [List.find?_cons_of_pos _ ((hu a).trans h),
          List.find?_cons_of_pos _ h]
        rfl
      · have h' : ¬ p a = true := h
        simp only [List.map_cons, if_neg h']
        rw [List.find?_cons_of_neg _ h', List.find?_cons_of_neg _ h']
        exact ih

theorem genMatches_applyUpdateFields (id clientId : Nat) (f : UpdateFields)
    (g : GenRow) :
    genMatches id clientId (applyUpdateFields f g) = genMatches id clientId g :=
  rfl

/-- The row returned by an effective `updateGeneration` is the stored
row rewritten by the SET clauses. -/
theorem updateGeneration_returns (id clientId : Nat) (f : UpdateFields)
    (store : Store) (hf : f.hasUpdates = true) {row : GenRow}
    (hrow : (updateGeneration id clientId f store).1 = some row) :
    ∃ g ∈ store.generations, genMatches id clientId g = true
      ∧ row = applyUpdateFields f g := by
  unfold updateGeneration at hrow
  rw [if_pos hf] at hrow
  simp only at hrow
  rw [find?_map_ite (genMatches id clientId) (applyUpdateFields f)
    (genMatches_applyUpdateFields id clientId f) store.generations] at hrow
  match hfind : store.generations.find? (genMatches id clientId) with
  | none => rw [hfind] at hrow; exact absurd hrow (by simp)
  | some g =>
      rw [hfind] at hrow
      exact ⟨g, List.mem_of_find?_eq_some hfind, List.find?_some hfind,
        (Option.some.inj hrow).symm⟩

/-- Any row of the store after an effective `updateGeneration` that
matches the targeted id and client is the rewrite of a previously stored
row. -/
theorem updateGeneration_mem (id clientId : Nat) (f : UpdateFields)
    (store : Store) (hf : f.hasUpdates = true) {row : GenRow}
    (hrow : row ∈ (updateGeneration id clientId f store).2.generations)
    (hid : row.id = id) (hcl : row.client_id = clientId) :
    ∃ g ∈ store.generations, row = applyUpdateFields f g := by
  unfold updateGeneration at hrow
  rw [if_pos hf] at hrow
  simp only [List.mem_map] at hrow
  obtain ⟨g, hg, hfg⟩ := hrow
  by_cases hc : genMatches id clientId g = true
  · rw [if_pos hc] at hfg
    exact ⟨g, hg, hfg.symm⟩
  · rw [if_neg hc] at hfg
    subst hfg
    exact absurd (by simp [genMatches, hid, hcl]) hc

/-- C10: when `updateGeneration` is called with `generated_images` but
without `selected_image_url`, the stored list is normalized with a null
selection key — every persisted entry has `is_selected = false` — and
the row's stored `selected_image_url` is left unchanged rather than
consulted as the selection key. -/
theorem updateGeneration_images_null_selection (id clientId : Nat)
    (store : Store) (f : UpdateFields) (imgs : List ImgInput)
    (hg : f.generated_images = some imgs)
    (hs : f.selected_image_url = none)
    (row : GenRow)
    (hrow : (updateGeneration id clientId f store).1 = some row) :
    row.generated_images = normalizeGenerationImages imgs none
    ∧ (∀ e ∈ row.generated_images, e.is_selected = false)
    ∧ ∃ g ∈ store.generations, g.id = id ∧ g.client_id = clientId
        ∧ row.selected_image_url = g.selected_image_url := by
  have hf : f.hasUpdates = true := by
    unfold UpdateFields.hasUpdates
    rw [hg]
    simp
  obtain ⟨g, hgmem, hgmatch, hroweq⟩ :=
    updateGeneration_returns id clientId f store hf hrow
  have himgs : row.generated_images = normalizeGenerationImages imgs none := by
    rw [hroweq]
    show (match f.generated_images with
      | some imgs => normalizeGenerationImages imgs f.selected_image_url.join
      | none => g.generated_images) = _
    rw [hg, hs]
    rfl
  refine ⟨himgs, ?_, ?_⟩
  · intro e he
    rw [himgs] at he
    obtain ⟨img, _, h⟩ := mem_normalizeGenerationImages he
    obtain ⟨u, _, _, hrec⟩ := normalizeImageEntry_eq_some h
    rw [hrec]
    rfl
  · have hmatch := hgmatch
    unfold genMatches at hmatch
    simp only [Bool.and_eq_true, beq_iff_eq] at hmatch
    refine ⟨g, hgmem, hmatch.1, hmatch.2, ?_⟩
    rw [hroweq]
    show f.selected_image_url.getD g.selected_image_url = _
    rw [hs]
    rfl

/-- Witness for C10: updating images on a row that already holds a
non-null `selected_image_url`. -/
theorem updateGeneration_images_null_selection_witness :
    ({ c10DemoRow with
        generated_images :=
          normalizeGenerationImages
            [ImgInput.str "https://cdn.example/new.jpg"] none } :
      GenRow).generated_images
      = normalizeGenerationImages
          [ImgInput.str "https://cdn.example/new.jpg"] none
    ∧ (∀ e ∈ ({ c10DemoRow with
          generated_images :=
            normalizeGenerationImages
              [ImgInput.str "https://cdn.example/new.jpg"] none } :
        GenRow).generated_images, e.is_selected = false)
    ∧ ∃ g ∈ c10DemoStore.generations, g.id = 1 ∧ g.client_id = 1
        ∧ ({ c10DemoRow with
              generated_images :=
                normalizeGenerationImages
                  [ImgInput.str "https://cdn.example/new.jpg"] none } :
            GenRow).selected_image_url = g.selected_image_url :=
  updateGeneration_images_null_selection 1 1 c10DemoStore c10DemoFields
    [ImgInput.str "https://cdn.example/new.jpg"] rfl rfl _ (by decide)

/-! ### Metadata read/write lemmas (shared by the executeItem claims) -/

theorem Metadata.get_cons_eq (p : String × JVal) (t : Metadata) (k : String)
    (h : p.1 = k) : Metadata.get (p :: t) k = some p.2 := by
  unfold Metadata.get
  rw [List.find?_cons_of_pos _ (by simpa using h)]
  rfl

theorem Metadata.get_cons_ne (p : String × JVal) (t : Metadata) (k : String)
    (h : ¬ p.1 = k) : Metadata.get (p :: t) k = Metadata.get t k := by
  unfold Metadata.get
  rw [List.find?_cons_of_neg _ (by simpa using h)]

theorem Metadata.get_set_same (m : Metadata) (k : String) (v : JVal) :
    (m.set k v).get k = some v := by
  induction m with
  | nil =>
      simp only [Metadata.set]
      rw [Metadata.get_cons_eq _ _ _ rfl]
  | cons p t ih =>
      by_cases hp : p.1 = k
      · simp only [Metadata.set, if_pos hp]
        rw [Metadata.get_cons_eq _ _ _ rfl]
      · simp only [Metadata.set, if_neg hp]
        rw [Metadata.get_cons_ne _ _ _ hp]
        exact ih

theorem Metadata.get_set_ne (m : Metadata) (k k' : String) (v : JVal)
    (h : k' ≠ k) : (m.set k v).get k' = m.get k' := by
  induction m with
  | nil =>
      simp only [Metadata.set]
      rw [Metadata.get_cons_ne (k, v) _ _ (Ne.symm h)]
  | cons p t ih =>
      by_cases hp : p.1 = k
      · have hpk : ¬ p.1 = k' := by
          rw [hp]
          exact Ne.symm h
        simp only [Metadata.set, if_pos hp]
        rw [Metadata.get_cons_ne (k, v) _ _ (Ne.symm h),
          Metadata.get_cons_ne p _ _ hpk]
      · simp only [Metadata.set, if_neg hp]
        by_cases hp' : p.1 = k'
        · rw [Metadata.get_cons_eq _ _ _ hp', Metadata.get_cons_eq _ _ _ hp']
        · rw [Metadata.get_cons_ne _ _ _ hp', Metadata.get_cons_ne _ _ _ hp']
          exact ih

theorem Metadata.get_set_isSome (m : Metadata) (k k' : String) (v : JVal)
    (h : (m.get k').isSome = true) :
    ((m.set k v).get k').isSome = true := by
  by_cases hk : k' = k
  · subst hk
    rw [Metadata.get_set_same]
    rfl
  · rw [Metadata.get_set_ne m k k' v hk]
    exact h

/-! ### Per-job execution (claims C7, C8) -/

/-- `refreshBatchStatus` rewrites only batch rows. -/
theorem refreshBatchStatus_generations (batchId clientId : Nat)
    (store : Store) :
    (refreshBatchStatus batchId clientId store).2.generations
      = store.generations := rfl

/-- C7: when the external image-generation call for a job fails (missing
credentials, timeout, or provider error), `executeItem` marks that job's
generation `failed` with the failure's human-readable message as the
`error` field, and invokes the external generator exactly once — the
call is never retried. -/
theorem executeItem_failure_terminal
    (falGen : Option String → FalOpts → Except FalFailure FalResult)
    (item : PlanItem) (generation : GenRow) (clientId batchId : Nat)
    (st : ExecState) (e : FalFailure)
    (hcall : falGen item.prompt (buildFalOpts item) = .error e)
    (hmsg : falMessage e ≠ "") :
    (executeItem falGen item generation clientId batchId st).2.falCalls
        = st.falCalls + 1
    ∧ (executeItem falGen item generation clientId batchId st).1
        = .failure (falMessage e)
    ∧ ∀ row ∈ (executeItem falGen item generation clientId batchId
          st).2.store.generations,
        row.id = generation.id → row.client_id = clientId →
        row.status = .failed ∧ row.error = some (falMessage e) := by
  have hmsg' : jsStrOr (some (falMessage e)) "Generation failed"
      = falMessage e := by
    simp [jsStrOr, hmsg]
  refine ⟨?_, ?_, ?_⟩
  · simp only [executeItem, hcall]
  · simp only [executeItem, hcall, hmsg']
  · simp only [executeItem, hcall, hmsg', refreshBatchStatus_generations]
    intro row hrow hid hcl
    obtain ⟨g, _, hroweq⟩ :=
      updateGeneration_mem generation.id clientId _ _ (by rfl) hrow hid hcl
    rw [hroweq]
    exact ⟨rfl, rfl⟩

/-- Witness for C7 at a provider error with message `"boom"`. -/
theorem executeItem_failure_terminal_witness :
    (executeItem (fun _ _ => .error (.providerError "boom")) c7DemoItem
        c7DemoGen 1 1 c7DemoState).2.falCalls = 0 + 1
    ∧ (executeItem (fun _ _ => .error (.providerError "boom")) c7DemoItem
        c7DemoGen 1 1 c7DemoState).1
        = .failure (falMessage (.providerError "boom"))
    ∧ ∀ row ∈ (executeItem (fun _ _ => .error (.providerError "boom"))
          c7DemoItem c7DemoGen 1 1 c7DemoState).2.store.generations,
        row.id = c7DemoGen.id → row.client_id = 1 →
        row.status = .failed
          ∧ row.error = some (falMessage (.providerError "boom")) :=
  executeItem_failure_terminal _ c7DemoItem c7DemoGen 1 1 c7DemoState
    (.providerError "boom") rfl (by decide)

theorem jsOrNullStr_head_url (ims : List FalImage)
    (h : ∀ im ∈ ims, im.url ≠ "") :
    jsOrNullStr ((ims.head?).map FalImage.url) = (ims.head?).map FalImage.url := by
  cases ims with
  | nil => rfl
  | cons im t => simp [jsOrNullStr, h im (List.mem_cons_self im t)]

theorem normalize_falImages_urls (sel : Option String) :
    ∀ ims : List FalImage, (∀ im ∈ ims, im.url ≠ "") →
      (normalizeGenerationImages (ims.map FalImage.toImgInput) sel).map
          NormImage.url
        = ims.map FalImage.url := by
  intro ims
  induction ims with
  | nil => intro _; rfl
  | cons im t ih =>
      intro h
      have him : im.url ≠ "" := h im (List.mem_cons_self im t)
      have hentry : normalizeImageEntry im.toImgInput sel
          = some { url := im.url, width := im.width, height := im.height,
                   content_type := im.content_type,
                   is_selected := jsIsSelected im.url sel, score := none,
                   status := "ready" } := by
        simp [normalizeImageEntry, FalImage.toImgInput, resolveImgUrl,
          jsOrNullStr, him, ImgInput.width?, ImgInput.height?,
          ImgInput.contentType?, ImgInput.score?, ImgInput.status?]
      unfold normalizeGenerationImages at *
      simp only [List.map_cons, List.filterMap_cons, hentry]
      exact congrArg (List.cons im.url)
        (ih (fun x hx => h x (List.mem_cons_of_mem _ hx)))

/-- C8: when the external image-generation call for a job succeeds,
`executeItem` marks the generation `done`, stores the returned image list
(normalized, with the first image's URL as `selected_image_url` and as
the selection key), and merges provider request id, seed and model name
into the generation's metadata while retaining every previously-stored
metadata key. -/
theorem executeItem_success_merges
    (falGen : Option String → FalOpts → Except FalFailure FalResult)
    (item : PlanItem) (generation : GenRow) (clientId batchId : Nat)
    (st : ExecState) (result : FalResult)
    (hcall : falGen item.prompt (buildFalOpts item) = .ok result)
    (hurls : ∀ im ∈ result.images, im.url ≠ "") :
    ∀ row ∈ (executeItem falGen item generation clientId batchId
        st).2.store.generations,
      row.id = generation.id → row.client_id = clientId →
      row.status = .done
      ∧ row.selected_image_url = (result.images.head?).map FalImage.url
      ∧ row.generated_images
          = normalizeGenerationImages (result.images.map FalImage.toImgInput)
              ((result.images.head?).map FalImage.url)
      ∧ row.generated_images.map NormImage.url
          = result.images.map FalImage.url
      ∧ row.metadata.get "fal_request_id" = some (jOfOptStr result.requestId)
      ∧ row.metadata.get "fal_seed" = some (jOfOptInt result.seed)
      ∧ row.metadata.get "fal_model" = some (.jstr result.model)
      ∧ ∀ k, (generation.metadata.get k).isSome = true →
          ((row.metadata.get k)).isSome = true := by
  have hsel := jsOrNullStr_head_url result.images hurls
  simp only [executeItem, hcall, refreshBatchStatus_generations]
  intro row hrow hid hcl
  obtain ⟨g, _, hroweq⟩ :=
    updateGeneration_mem generation.id clientId _ _ (by rfl) hrow hid hcl
  rw [hroweq]
  refine ⟨rfl, hsel, ?_, ?_, ?_, ?_, ?_, ?_⟩
  · exact congrArg
      (normalizeGenerationImages (result.images.map FalImage.toImgInput)) hsel
  · exact normalize_falImages_urls
      (jsOrNullStr ((result.images.head?).map FalImage.url)) result.images hurls
  · exact (Metadata.get_set_ne _ "fal_model" "fal_request_id" _
        (by decide)).trans
      ((Metadata.get_set_ne _ "fal_seed" "fal_request_id" _ (by decide)).trans
        (Metadata.get_set_same _ "fal_request_id" _))
  · exact (Metadata.get_set_ne _ "fal_model" "fal_seed" _ (by decide)).trans
      (Metadata.get_set_same _ "fal_seed" _)
  · exact Metadata.get_set_same _ "fal_model" _
  · intro k hk
    exact Metadata.get_set_isSome _ _ _ _
      (Metadata.get_set_isSome _ _ _ _ (Metadata.get_set_isSome _ _ _ _ hk))

def c8DemoRow : GenRow :=
  ((executeItem (fun _ _ => .ok c8DemoResult) c7DemoItem c7DemoGen 1 1
      c7DemoState).2.store.generations).head?.getD c7DemoGen

/-- Witness for C8 at a one-image success result against a generation
carrying creation-time metadata. -/
theorem executeItem_success_merges_witness :
    c8DemoRow.status = .done
    ∧ c8DemoRow.selected_image_url
        = (c8DemoResult.images.head?).map FalImage.url
    ∧ c8DemoRow.generated_images
        = normalizeGenerationImages
            (c8DemoResult.images.map FalImage.toImgInput)
            ((c8DemoResult.images.head?).map FalImage.url)
    ∧ c8DemoRow.generated_images.map NormImage.url
        = c8DemoResult.images.map FalImage.url
    ∧ c8DemoRow.metadata.get "fal_request_id"
        = some (jOfOptStr c8DemoResult.requestId)
    ∧ c8DemoRow.metadata.get "fal_seed" = some (jOfOptInt c8DemoResult.seed)
    ∧ c8DemoRow.metadata.get "fal_model" = some (.jstr c8DemoResult.model)
    ∧ ∀ k, (c7DemoGen.metadata.get k).isSome = true →
        ((c8DemoRow.metadata.get k)).isSome = true :=
  executeItem_success_merges (fun _ _ => .ok c8DemoResult) c7DemoItem
    c7DemoGen 1 1 c7DemoState c8DemoResult rfl (by decide) c8DemoRow
    (by decide) (by decide) (by decide)

/-! ### Submission validation (claim C3) -/

/-- C3: a submission whose job list is missing/not a list, empty, or
longer than 20 fails synchronously with a validation error, and the
store is unchanged — no batch record and no generation record is
created. -/
theorem submitBatch_validation_rejects (rawItems : Option (List PlanItem))
    (goalRaw : Option String) (clientId : Nat) (store : Store)
    (h : rawItems = none
      ∨ ∃ items, rawItems = some items
          ∧ (items.length = 0 ∨ items.length > 20)) :
    (∃ msg, (submitBatch rawItems goalRaw clientId store).1
        = .validationError msg)
    ∧ (submitBatch rawItems goalRaw clientId store).2 = store := by
  match h with
  | .inl hnone =>
      subst hnone
      exact ⟨⟨"items[] array is required", rfl⟩, rfl⟩
  | .inr ⟨items, hsome, hbad⟩ =>
      subst hsome
      match hbad with
      | .inl hzero =>
          refine ⟨⟨"items[] array is required", ?_⟩, ?_⟩ <;>
            simp [submitBatch, hzero]
      | .inr hbig =>
          have hnz : ¬ items.length = 0 := by omega
          have hgt : items.length > 20 := hbig
          refine ⟨⟨"Maximum 20 items per batch", ?_⟩, ?_⟩ <;>
            simp [submitBatch, hnz, hgt]

/-- Witness for C3: a 21-item list is rejected and the empty store is
untouched. -/
theorem submitBatch_validation_rejects_witness :
    (∃ msg, (submitBatch
        (some (List.replicate 21
          ({ index := none, persona := none, angle := none, prompt := none,
             concept := none, headline := none, cta := none,
             image_size := none, product_image_url := none,
             metadata_goal := none,
             metadata_strategy_rationale := none } : PlanItem)))
        none 1 { batches := [], generations := [], nextBatchId := 1,
                 nextGenId := 1 }).1 = .validationError msg)
    ∧ (submitBatch
        (some (List.replicate 21
          ({ index := none, persona := none, angle := none, prompt := none,
             concept := none, headline := none, cta := none,
             image_size := none, product_image_url := none,
             metadata_goal := none,
             metadata_strategy_rationale := none } : PlanItem)))
        none 1 { batches := [], generations := [], nextBatchId := 1,
                 nextGenId := 1 }).2
      = { batches := [], generations := [], nextBatchId := 1,
          nextGenId := 1 } :=
  submitBatch_validation_rejects _ none 1 _ (.inr ⟨_, rfl, .inr (by decide)⟩)

/-! ### Submission effects (claim C4) -/

/-- Stamping a freshly appended row rewrites that row alone and returns
it. -/
theorem stampCampaignBatchId_fresh (s : Store) (olds : List GenRow)
    (g0 : GenRow) (batchId : Nat)
    (hgen : s.generations = olds ++ [g0])
    (hwf : ∀ g ∈ olds, g.id < g0.id) :
    stampCampaignBatchId g0.id batchId s
      = (some { g0 with campaign_batch_id := some batchId },
         { s with generations :=
             olds ++ [{ g0 with campaign_batch_id := some batchId }] }) := by
  have holds : ∀ g ∈ olds, (g.id == g0.id) = false := fun g hg => by
    simp [Nat.ne_of_lt (hwf g hg)]
  unfold stampCampaignBatchId
  rw [hgen, List.map_append]
  have h1 : olds.map
      (fun g => if g.id == g0.id
                then { g with campaign_batch_id := some batchId } else g)
      = olds := by
    rw [List.map_congr_left
      (fun g hg => by rw [if_neg (by simp [holds g hg])])]
    exact List.map_id' olds
  have h2 : [g0].map
      (fun g => if g.id == g0.id
                then { g with campaign_batch_id := some batchId } else g)
      = [{ g0 with campaign_batch_id := some batchId }] := by
    simp
  have hfind : (olds ++ [{ g0 with campaign_batch_id := some batchId }]).find?
      (fun g => g.id == g0.id)
      = some { g0 with campaign_batch_id := some batchId } := by
    rw [List.find?_append]
    rw [List.find?_eq_none.mpr (fun g hg => by simp [holds g hg])]
    simp
  simp only [h1, h2, hfind]

/-- The submit loop in closed form: it appends exactly the closed-form
rows and advances the id sequence by the item count. -/
theorem submitGensLoop_eq (items : List PlanItem) :
    ∀ (i batchId : Nat) (goal : Option String) (clientId : Nat)
      (store : Store),
      (∀ g ∈ store.generations, g.id < store.nextGenId) →
      submitGensLoop items i batchId goal clientId store
        = (submittedGenRows items i store.nextGenId batchId goal clientId,
           { store with
             generations := store.generations
               ++ submittedGenRows items i store.nextGenId batchId goal
                    clientId
             nextGenId := store.nextGenId + items.length }) := by
  induction items with
  | nil =>
      intro i batchId goal clientId store _
      simp [submitGensLoop, submittedGenRows]
  | cons item rest ih =>
      intro i batchId goal clientId store hwf
      have hstamp := stampCampaignBatchId_fresh
        { store with
          generations := store.generations
            ++ [createdGenRow clientId store.nextGenId batchId item i goal]
          nextGenId := store.nextGenId + 1 }
        store.generations
        (createdGenRow clientId store.nextGenId batchId item i goal)
        batchId rfl hwf
      have hwf2 : ∀ g ∈ store.generations
          ++ [{ createdGenRow clientId store.nextGenId batchId item i goal
                with campaign_batch_id := some batchId }],
          g.id < store.nextGenId + 1 := by
        intro g hg
        rcases List.mem_append.mp hg with hg | hg
        · exact Nat.lt_succ_of_lt (hwf g hg)
        · rw [List.mem_singleton.mp hg]
          exact Nat.lt_succ_self _
      have hih := ih (i + 1) batchId goal clientId
        { store with
          generations := store.generations
            ++ [{ createdGenRow clientId store.nextGenId batchId item i goal
                  with campaign_batch_id := some batchId }]
          nextGenId := store.nextGenId + 1 } hwf2
      simp only [createdGenRow] at hstamp hih
      simp only [submitGensLoop, createGeneration, submittedGenRows,
        mkSubmittedGen, createdGenRow]
      rw [hstamp]
      simp only [Option.getD_some]
      rw [hih]
      rw [Prod.mk.injEq]
      refine ⟨rfl, ?_⟩
      rw [Store.mk.injEq]
      refine ⟨rfl, ?_, rfl, ?_⟩
      · rw [List.append_assoc]
        rfl
      · rw [List.length_cons]
        omega

theorem submittedGenRows_length (items : List PlanItem) :
    ∀ (i genId batchId : Nat) (goal : Option String) (clientId : Nat),
      (submittedGenRows items i genId batchId goal clientId).length
        = items.length := by
  induction items with
  | nil => intro i genId batchId goal clientId; rfl
  | cons item rest ih =>
      intro i genId batchId goal clientId
      simp only [submittedGenRows, List.length_cons, ih]

theorem submittedGenRows_mem (items : List PlanItem) :
    ∀ (i genId batchId : Nat) (goal : Option String) (clientId : Nat)
      (g : GenRow),
      g ∈ submittedGenRows items i genId batchId goal clientId →
      g.status = .pending ∧ g.campaign_batch_id = some batchId := by
  induction items with
  | nil =>
      intro i genId batchId goal clientId g hg
      exact absurd hg (by simp [submittedGenRows])
  | cons item rest ih =>
      intro i genId batchId goal clientId g hg
      rcases List.mem_cons.mp hg with hg | hg
      · subst hg
        exact ⟨rfl, rfl⟩
      · exact ih (i + 1) (genId + 1) batchId goal clientId g hg

theorem submittedGenRows_get (items : List PlanItem) :
    ∀ (i genId batchId : Nat) (goal : Option String) (clientId : Nat)
      (k : Nat) (hk : k < items.length)
      (hk2 : k < (submittedGenRows items i genId batchId goal
          clientId).length),
      (submittedGenRows items i genId batchId goal clientId).get ⟨k, hk2⟩
        = mkSubmittedGen (genId + k) clientId batchId (items.get ⟨k, hk⟩)
            (i + k) goal := by
  induction items with
  | nil =>
      intro i genId batchId goal clientId k hk _
      exact absurd hk (by simp)
  | cons item rest ih =>
      intro i genId batchId goal clientId k hk hk2
      match k with
      | 0 => rfl
      | k + 1 =>
          have h1 : genId + (k + 1) = (genId + 1) + k := by omega
          have h2 : i + (k + 1) = (i + 1) + k := by omega
          rw [h1, h2]
          exact ih (i + 1) (genId + 1) batchId goal clientId k
            (by simpa using Nat.lt_of_succ_lt_succ hk)
            (by simpa [submittedGenRows] using Nat.lt_of_succ_lt_succ hk2)

theorem submitRespItems_length (items : List PlanItem) :
    ∀ (gens : List GenRow) (i : Nat), gens.length = items.length →
      (submitRespItems items gens i).length = items.length := by
  induction items with
  | nil => intro gens i _; cases gens <;> rfl
  | cons item rest ih =>
      intro gens i hlen
      match gens with
      | g :: restG =>
          simp only [submitRespItems, List.length_cons]
          rw [ih restG (i + 1) (by simpa using hlen)]

theorem submitRespItems_get (items : List PlanItem) :
    ∀ (gens : List GenRow) (i : Nat) (k : Nat)
      (hk : k < items.length) (hkg : k < gens.length)
      (hkr : k < (submitRespItems items gens i).length),
      (submitRespItems items gens i).get ⟨k, hkr⟩
        = { index := (items.get ⟨k, hk⟩).index.getD (i + k + 1)
            generation_id := (gens.get ⟨k, hkg⟩).id
            status := .pending } := by
  induction items with
  | nil =>
      intro gens i k hk _ _
      exact absurd hk (by simp)
  | cons item rest ih =>
      intro gens i k hk hkg hkr
      match gens with
      | g :: restG =>
          match k with
          | 0 =>
              show ({ index := item.index.getD (i + 1), generation_id := g.id,
                      status := .pending } : SubmitRespItem) = _
              rw [show i + 0 + 1 = i + 1 from by omega]
              rfl
          | k + 1 =>
              have h1 : i + (k + 1) + 1 = (i + 1) + k + 1 := by omega
              rw [show ((submitRespItems (item :: rest) (g :: restG) i).get
                    ⟨k + 1, hkr⟩)
                  = (submitRespItems rest restG (i + 1)).get
                      ⟨k, by simpa [submitRespItems] using
                        Nat.lt_of_succ_lt_succ hkr⟩ from rfl, h1]
              exact ih restG (i + 1) k (Nat.lt_of_succ_lt_succ hk)
                (Nat.lt_of_succ_lt_succ hkg) _

theorem campaignGenMetadata_get_batch (batchId : Nat) (item : PlanItem)
    (i : Nat) (goal : Option String) :
    (campaignGenMetadata batchId item i goal).get "campaign_batch_id"
      = some (.jint batchId) := by
  rw [show campaignGenMetadata batchId item i goal
      = ("campaign_batch_id", JVal.jint batchId)
        :: (campaignGenMetadata batchId item i goal).tail from rfl]
  rw [Metadata.get_cons_eq _ _ _ rfl]

theorem campaignGenMetadata_get_index (batchId : Nat) (item : PlanItem)
    (i : Nat) (goal : Option String) :
    (campaignGenMetadata batchId item i goal).get "batch_item_index"
      = some (.jint (item.index.getD (i + 1))) := by
  rw [show campaignGenMetadata batchId item i goal
      = ("campaign_batch_id", JVal.jint batchId)
        :: ("batch_item_index", JVal.jint (item.index.getD (i + 1)))
        :: (campaignGenMetadata batchId item i goal).tail.tail from rfl]
  rw [Metadata.get_cons_ne _ _ _ (by simp),
    Metadata.get_cons_eq _ _ _ rfl]

/-- C4 counterexample: submitting the one-item list whose item carries
`index = 7` tags the created generation — and the returned tuple — with
`7`, the item's own `index` field, not with its original list position
`1`: the position tag comes from `item.index ?? (i+1)`, not from the
list position. -/
theorem submitBatch_index_tag_counterexample :
    (submitBatch (some [c4Item7]) none 1 emptyStore).1
      = .accepted { batch_id := 1, total := 1,
                    items := [{ index := 7, generation_id := 1,
                                status := .pending }] }
    ∧ (∀ g ∈ (submitBatch (some [c4Item7]) none 1 emptyStore).2.generations,
        g.metadata.get "batch_item_index" = some (.jint 7))
    ∧ JVal.jint 7 ≠ JVal.jint 1 := by
  decide

/-- C4 (amended): for every non-empty job list of length ≤ 20, submit
creates exactly one batch record (`total_items` = length, status
`running`), one generation per job in list order — each `pending`,
tagged with the batch id and with the item's own `index` field when
present, else its 1-based list position — and returns the batch id and
the ordered `(same index rule, generation id, 'pending')` tuples
immediately, with every created generation still `pending` (no job has
executed). -/
theorem submitBatch_accepted_effects (items : List PlanItem)
    (goalRaw : Option String) (clientId : Nat) (store : Store)
    (hwf : ∀ g ∈ store.generations, g.id < store.nextGenId)
    (hne : items ≠ []) (hcap : items.length ≤ 20) :
    ∃ resp,
      (submitBatch (some items) goalRaw clientId store).1 = .accepted resp
      ∧ (submitBatch (some items) goalRaw clientId store).2.batches
          = store.batches
            ++ [{ id := store.nextBatchId, client_id := clientId,
                  goal := jsTrimOrNull goalRaw,
                  total_items := items.length, status := .running,
                  metadata := [("source", .jstr "campaign_plan")] }]
      ∧ ∃ gens,
          (submitBatch (some items) goalRaw clientId store).2.generations
            = store.generations ++ gens
          ∧ gens.length = items.length
          ∧ (∀ g ∈ gens, g.status = .pending
              ∧ g.campaign_batch_id = some store.nextBatchId)
          ∧ resp.batch_id = store.nextBatchId
          ∧ resp.total = items.length
          ∧ resp.items.length = items.length
          ∧ ∀ k (hk : k < items.length) (hkg : k < gens.length)
              (hkr : k < resp.items.length),
              (gens.get ⟨k, hkg⟩).status = .pending
              ∧ (gens.get ⟨k, hkg⟩).campaign_batch_id
                  = some store.nextBatchId
              ∧ (gens.get ⟨k, hkg⟩).metadata.get "campaign_batch_id"
                  = some (.jint store.nextBatchId)
              ∧ (gens.get ⟨k, hkg⟩).metadata.get "batch_item_index"
                  = some (.jint ((items.get ⟨k, hk⟩).index.getD (k + 1)))
              ∧ (resp.items.get ⟨k, hkr⟩).index
                  = (items.get ⟨k, hk⟩).index.getD (k + 1)
              ∧ (resp.items.get ⟨k, hkr⟩).generation_id
                  = (gens.get ⟨k, hkg⟩).id
              ∧ (resp.items.get ⟨k, hkr⟩).status = .pending := by
  have h0 : ¬ items.length = 0 := fun h => hne (List.length_eq_zero.mp h)
  have h20 : ¬ items.length > 20 := by omega
  have hloop := submitGensLoop_eq items 0 store.nextBatchId
    (jsTrimOrNull goalRaw) clientId
    { store with
      batches := store.batches
        ++ [{ id := store.nextBatchId, client_id := clientId,
              goal := jsTrimOrNull goalRaw, total_items := items.length,
              status := .running,
              metadata := [("source", .jstr "campaign_plan")] }]
      nextBatchId := store.nextBatchId + 1 } hwf
  simp only [submitBatch, if_neg h0, if_neg h20, createCampaignBatch]
  rw [hloop]
  refine ⟨_, rfl, rfl, submittedGenRows items 0 store.nextGenId
    store.nextBatchId (jsTrimOrNull goalRaw) clientId, rfl,
    submittedGenRows_length items 0 store.nextGenId store.nextBatchId
      (jsTrimOrNull goalRaw) clientId,
    fun g hg => submittedGenRows_mem items 0 store.nextGenId
      store.nextBatchId (jsTrimOrNull goalRaw) clientId g hg,
    rfl,
    submittedGenRows_length items 0 store.nextGenId store.nextBatchId
      (jsTrimOrNull goalRaw) clientId,
    submitRespItems_length items _ 0
      (submittedGenRows_length items 0 store.nextGenId store.nextBatchId
        (jsTrimOrNull goalRaw) clientId),
    ?_⟩
  intro k hk hkg hkr
  have hget := submittedGenRows_get items 0 store.nextGenId
    store.nextBatchId (jsTrimOrNull goalRaw) clientId k hk hkg
  have hresp := submitRespItems_get items
    (submittedGenRows items 0 store.nextGenId store.nextBatchId
      (jsTrimOrNull goalRaw) clientId) 0 k hk hkg hkr
  rw [hget] at hresp
  rw [hget, hresp]
  rw [show (0 : Nat) + k = k from Nat.zero_add k]
  exact ⟨rfl, rfl,
    campaignGenMetadata_get_batch store.nextBatchId _ k (jsTrimOrNull goalRaw),
    campaignGenMetadata_get_index store.nextBatchId _ k (jsTrimOrNull goalRaw),
    rfl, rfl, rfl⟩

/-- Witness for the amended C4 at a one-item submission whose item
carries no `index` field (the 1-based position fallback applies). -/
theorem submitBatch_accepted_effects_witness :
    ∃ resp,
      (submitBatch (some [c4WitItem]) none 1 emptyStore).1 = .accepted resp
      ∧ (submitBatch (some [c4WitItem]) none 1 emptyStore).2.batches
          = emptyStore.batches
            ++ [{ id := emptyStore.nextBatchId, client_id := 1,
                  goal := jsTrimOrNull none,
                  total_items := [c4WitItem].length, status := .running,
                  metadata := [("source", .jstr "campaign_plan")] }]
      ∧ ∃ gens,
          (submitBatch (some [c4WitItem]) none 1 emptyStore).2.generations
            = emptyStore.generations ++ gens
          ∧ gens.length = [c4WitItem].length
          ∧ (∀ g ∈ gens, g.status = .pending
              ∧ g.campaign_batch_id = some emptyStore.nextBatchId)
          ∧ resp.batch_id = emptyStore.nextBatchId
          ∧ resp.total = [c4WitItem].length
          ∧ resp.items.length = [c4WitItem].length
          ∧ ∀ k (hk : k < [c4WitItem].length) (hkg : k < gens.length)
              (hkr : k < resp.items.length),
              (gens.get ⟨k, hkg⟩).status = .pending
              ∧ (gens.get ⟨k, hkg⟩).campaign_batch_id
                  = some emptyStore.nextBatchId
              ∧ (gens.get ⟨k, hkg⟩).metadata.get "campaign_batch_id"
                  = some (.jint emptyStore.nextBatchId)
              ∧ (gens.get ⟨k, hkg⟩).metadata.get "batch_item_index"
                  = some (.jint (([c4WitItem].get ⟨k, hk⟩).index.getD (k + 1)))
              ∧ (resp.items.get ⟨k, hkr⟩).index
                  = ([c4WitItem].get ⟨k, hk⟩).index.getD (k + 1)
              ∧ (resp.items.get ⟨k, hkr⟩).generation_id
                  = (gens.get ⟨k, hkg⟩).id
              ∧ (resp.items.get ⟨k, hkr⟩).status = .pending :=
  submitBatch_accepted_effects [c4WitItem] none 1 emptyStore (by decide)
    (by decide) (by decide)

end MetaAd
